import Mathlib

/-!
Verification development for the spark-DBN repository.

The repository holds two Python source files:
  - mjolnir/cli/kafka_daemon.py        (thin CLI wrapper around mjolnir.kafka.daemon.Daemon)
  - mjolnir/cli/training_pipeline.py   (training driver: CLI parsing plus a per-wiki loop)

The argument parsers and the per-wiki training loop are embedded from the
source.  The daemon internals (mjolnir.kafka.daemon) are not part of the
visible source tree; where a claim is decided by that missing code, the
corresponding definitions are modelled from the spec and say so in their
doc comments.
-/

namespace SparkDbn

/-- Decidable equality for Except, so concrete parser runs can be checked
by kernel evaluation. -/
instance instDecidableEqExcept {ε α : Type} [DecidableEq ε] [DecidableEq α] :
    DecidableEq (Except ε α) := fun x y =>
  match x, y with
  | Except.error a, Except.error b =>
    if h : a = b then Decidable.isTrue (congrArg Except.error h)
    else Decidable.isFalse (fun hc => h (Except.error.inj hc))
  | Except.error _, Except.ok _ => Decidable.isFalse (fun hc => Except.noConfusion hc)
  | Except.ok _, Except.error _ => Decidable.isFalse (fun hc => Except.noConfusion hc)
  | Except.ok a, Except.ok b =>
    if h : a = b then Decidable.isTrue (congrArg Except.ok h)
    else Decidable.isFalse (fun hc => h (Except.ok.inj hc))

/-- Splitting a character list on a separator, as Python str.split with a
one-character separator behaves: every occurrence splits, empty pieces are
kept, and the empty input yields one empty piece. -/
def splitChars (sep : Char) : List Char → List (List Char)
  | [] => [[]]
  | c :: rest =>
    if c = sep then [] :: splitChars sep rest
    else
      match splitChars sep rest with
      | [] => [[c]]
      | piece :: pieces => (c :: piece) :: pieces

/-- Rejoin pieces with the separator between them: the inverse direction of
splitChars, used to state what being the comma-separated components means. -/
def joinChars (sep : Char) : List (List Char) → List Char
  | [] => []
  | [piece] => piece
  | piece :: pieces => piece ++ sep :: joinChars sep pieces

/-- Python x.split(sep) for a single-character separator, on Lean strings. -/
def pySplit (s : String) (sep : Char) : List String :=
  (splitChars sep s.data).map (fun cs => String.mk cs)

/-- Decimal digit run to a number: every character must be a digit and there
must be at least one, as in the digits of Python int parsing. -/
def digitsToNat? : List Char → Option Nat
  | [] => none
  | l => go l 0
where
  go : List Char → Nat → Option Nat
    | [], acc => some acc
    | c :: rest, acc =>
      if c.isDigit then go rest (acc * 10 + (c.toNat - 48))
      else none

/-- Python int(s): an optional sign followed by a nonempty digit run. -/
def pyInt? (s : String) : Option Int :=
  match s.data with
  | '-' :: rest => (digitsToNat? rest).map (fun n => -(n : Int))
  | '+' :: rest => (digitsToNat? rest).map (fun n => (n : Int))
  | l => (digitsToNat? l).map (fun n => (n : Int))

namespace KafkaDaemonCli

/-- Parsed result of parse_arguments in kafka_daemon.py: a dict with keys
brokers (the comma-split list) and n_workers. -/
structure DaemonArgs where
  brokers : List String
  n_workers : Int
deriving DecidableEq, Repr

/-- Accumulator while scanning argv: each option is None until seen,
mirroring argparse collecting option values before the required check. -/
structure DaemonScan where
  brokers : Option (List String)
  n_workers : Option Int
deriving DecidableEq, Repr

/-- Scanner for the two options declared in parse_arguments of
kafka_daemon.py: a -b or --brokers flag whose value is split on commas (the
lambda given as the argparse type), and a -w or --num-workers flag
converted by int(). Any other token is rejected, as argparse rejects
unrecognized arguments. -/
def scanDaemonArgv : List String → DaemonScan → Except String DaemonScan
  | [], st => Except.ok st
  | tok :: rest, st =>
    if tok = "-b" ∨ tok = "--brokers" then
      match rest with
      | [] => Except.error "argument -b/--brokers: expected one argument"
      | v :: rest2 => scanDaemonArgv rest2 { st with brokers := some (pySplit v ',') }
    else if tok = "-w" ∨ tok = "--num-workers" then
      match rest with
      | [] => Except.error "argument -w/--num-workers: expected one argument"
      | v :: rest2 =>
        match pyInt? v with
        | some n => scanDaemonArgv rest2 { st with n_workers := some n }
        | none => Except.error "argument -w/--num-workers: invalid int value"
    else
      Except.error ("unrecognized arguments: " ++ tok)

/-- parse_arguments of kafka_daemon.py: brokers is required=True, so
parsing fails when it was never supplied; num-workers has default=5. -/
def parse_arguments (argv : List String) : Except String DaemonArgs :=
  match scanDaemonArgv argv ⟨none, none⟩ with
  | Except.error e => Except.error e
  | Except.ok st =>
    match st.brokers with
    | none => Except.error "the following arguments are required: -b/--brokers"
    | some bs => Except.ok ⟨bs, st.n_workers.getD 5⟩

end KafkaDaemonCli

namespace TrainingPipelineCli

/-- Parsed result of parse_arguments in training_pipeline.py after its
post-processing step that replaces a missing num_cv_jobs with num_folds. -/
structure TrainArgs where
  input_dir : String
  output_dir : String
  num_workers : Int
  num_cv_jobs : Int
  num_folds : Int
  target_node_evaluations : Option Int
  wikis : List String
deriving DecidableEq, Repr

/-- Accumulator while scanning the training CLI argv: each option is None
until seen, positionals collect into wikis. -/
structure TrainScan where
  input_dir : Option String
  output_dir : Option String
  num_workers : Option Int
  num_cv_jobs : Option Int
  num_folds : Option Int
  target_node_evaluations : Option Int
  wikis : List String
deriving DecidableEq, Repr

/-- Scanner for the options declared in parse_arguments of
training_pipeline.py: the input and output flags take strings, the
workers, cv-jobs, folds and node-evaluations flags are converted by
int(), and any token that is not an option flag or an option
value is a positional wiki (nargs is one or more). Unknown flags are
rejected, as argparse rejects unrecognized arguments. -/
def scanTrainArgv : List String → TrainScan → Except String TrainScan
  | [], st => Except.ok st
  | tok :: rest, st =>
    if tok = "-i" ∨ tok = "--input" then
      match rest with
      | [] => Except.error "argument -i/--input: expected one argument"
      | v :: rest2 => scanTrainArgv rest2 { st with input_dir := some v }
    else if tok = "-o" ∨ tok = "--output" then
      match rest with
      | [] => Except.error "argument -o/--output: expected one argument"
      | v :: rest2 => scanTrainArgv rest2 { st with output_dir := some v }
    else if tok = "-w" ∨ tok = "--workers" then
      match rest with
      | [] => Except.error "argument -w/--workers: expected one argument"
      | v :: rest2 =>
        match pyInt? v with
        | some n => scanTrainArgv rest2 { st with num_workers := some n }
        | none => Except.error "argument -w/--workers: invalid int value"
    else if tok = "-c" ∨ tok = "--cv-jobs" then
      match rest with
      | [] => Except.error "argument -c/--cv-jobs: expected one argument"
      | v :: rest2 =>
        match pyInt? v with
        | some n => scanTrainArgv rest2 { st with num_cv_jobs := some n }
        | none => Except.error "argument -c/--cv-jobs: invalid int value"
    else if tok = "-f" ∨ tok = "--folds" then
      match rest with
      | [] => Except.error "argument -f/--folds: expected one argument"
      | v :: rest2 =>
        match pyInt? v with
        | some n => scanTrainArgv rest2 { st with num_folds := some n }
        | none => Except.error "argument -f/--folds: invalid int value"
    else if tok = "-n" ∨ tok = "--node-evaluations" then
      match rest with
      | [] => Except.error "argument -n/--node-evaluations: expected one argument"
      | v :: rest2 =>
        match pyInt? v with
        | some n => scanTrainArgv rest2 { st with target_node_evaluations := some n }
        | none => Except.error "argument -n/--node-evaluations: invalid int value"
    else
      match tok.data with
      | '-' :: _ => Except.error ("unrecognized arguments: " ++ tok)
      | _ => scanTrainArgv rest { st with wikis := st.wikis ++ [tok] }

/-- parse_arguments of training_pipeline.py: input and output are
required, at least one wiki is required, num_workers has default=10,
num_folds has default=5, target_node_evaluations has default=None, and
after parsing, a num_cv_jobs that is None is replaced by num_folds. -/
def parse_arguments (argv : List String) : Except String TrainArgs :=
  match scanTrainArgv argv ⟨none, none, none, none, none, none, []⟩ with
  | Except.error e => Except.error e
  | Except.ok st =>
    match st.input_dir with
    | none => Except.error "the following arguments are required: -i/--input"
    | some idir =>
      match st.output_dir with
      | none => Except.error "the following arguments are required: -o/--output"
      | some odir =>
        match st.wikis with
        | [] => Except.error "the following arguments are required: wiki"
        | w :: ws =>
          Except.ok ⟨idir, odir, st.num_workers.getD 10,
            st.num_cv_jobs.getD (st.num_folds.getD 5), st.num_folds.getD 5,
            st.target_node_evaluations, w :: ws⟩

end TrainingPipelineCli

namespace TrainingPipeline

/-- Count of conversion specifiers in a Python percent-format string: a
percent starts a specifier unless it is doubled. Good for every format
string appearing in training_pipeline.py. -/
def countSpecs : List Char → Nat
  | [] => 0
  | '%' :: '%' :: rest => countSpecs rest
  | '%' :: _ :: rest => 1 + countSpecs rest
  | ['%'] => 0
  | _ :: rest => countSpecs rest

/-- Python percent-formatting of nargs arguments: the interpreter raises
TypeError when the argument count does not match the conversion
specifiers of the format string. -/
def pyFormat (fmt : String) (nargs : Nat) : Except String Unit :=
  if countSpecs fmt.data = nargs then Except.ok ()
  else if countSpecs fmt.data > nargs then
    Except.error "TypeError: not enough arguments for format string"
  else
    Except.error "TypeError: not all arguments converted during string formatting"

/-- Observable events of one wiki iteration of main in
training_pipeline.py: the tune call with the parameters handed to
mjolnir.training.xgboost.tune, and the three files written. -/
inductive Event
  | tuneCall (wiki : String) (num_folds : Int) (num_fold_partitions_arg : Nat)
      (num_cv_jobs : Int) (num_workers : Int)
  | wroteTunePickle (wiki : String)
  | wroteJsonModel (wiki : String)
  | wroteBinaryModel (wiki : String)
deriving DecidableEq, Repr

/-- Line 39 of training_pipeline.py, with Python 2 integer division on a
nonnegative row count. -/
def num_fold_partitions (data_size : Nat) : Nat :=
  min 100 (max 1 (data_size / 40000))

/-- Run a sequence of percent-format applications, stopping at the first
raised TypeError, as the prints of the per-wiki body execute in order. -/
def runFormats : List (String × Nat) → Except String Unit
  | [] => Except.ok ()
  | (fmt, n) :: rest =>
    match pyFormat fmt n with
    | Except.error e => Except.error e
    | Except.ok _ => runFormats rest

/-- One iteration of the for loop of main in training_pipeline.py, lines
25 to 83, for one wiki. data_size gives the filtered row count of the
wiki. Returns the observable events of the iteration, or the text of an
uncaught Python exception. Every percent-format print is modelled as a
formatting step that can raise; the zero-row branch applies the format
string of line 32, which has no conversion specifier, to one argument. -/
def processWiki (data_size : String → Nat) (num_workers num_cv_jobs num_folds : Int)
    (wiki : String) : Except String (List Event) :=
  match pyFormat "Training wiki: %s" 1 with
  | Except.error e => Except.error e
  | Except.ok _ =>
    if data_size wiki = 0 then
      match pyFormat "No data found." 1 with
      | Except.error e => Except.error e
      | Except.ok _ => Except.ok []
    else
      match runFormats [("Wrote tuning results to %s", 1),
          ("CV  test-ndcg@10: %.4f", 1), ("CV train-ndcg@10: %.4f", 1),
          ("\t%20s: %s", 2), ("train-ndcg@10: %.3f", 1), ("%d %s q", 2),
          ("Wrote xgboost json model to %s", 1),
          ("Wrote xgboost binary model to %s", 1)] with
      | Except.error e => Except.error e
      | Except.ok _ =>
        Except.ok [Event.tuneCall wiki num_folds
            (num_fold_partitions (data_size wiki)) num_cv_jobs num_workers,
          Event.wroteTunePickle wiki, Event.wroteJsonModel wiki,
          Event.wroteBinaryModel wiki]

/-- The for loop of main in training_pipeline.py over the wiki list; an
uncaught exception aborts the remaining wikis, a completed iteration
contributes its events and the loop moves to the next wiki. -/
def main (data_size : String → Nat) (num_workers num_cv_jobs num_folds : Int) :
    List String → Except String (List Event)
  | [] => Except.ok []
  | w :: rest =>
    match processWiki data_size num_workers num_cv_jobs num_folds w with
    | Except.error e => Except.error e
    | Except.ok evs =>
      match main data_size num_workers num_cv_jobs num_folds rest with
      | Except.error e => Except.error e
      | Except.ok evs2 => Except.ok (evs ++ evs2)

end TrainingPipeline

namespace KafkaDaemonModel

/-- Modelled from the spec: mjolnir.kafka.daemon is not in the visible
source tree, so the BulkRequest value of section 3 of the spec is taken
from its words — correlation_id, target, queries, meta, immutable once
decoded. -/
structure BulkRequest where
  correlation_id : String
  target : String
  queries : List String
  meta : List (String × String)
deriving DecidableEq, Repr

/-- Modelled from the spec: the failure classification of sections 4.2 and
7 — retryable-exhausted, permanent, and decode errors. -/
inductive ErrorKind
  | retryableExhausted
  | permanent
  | decodeError
deriving DecidableEq, Repr

/-- Modelled from the spec: the tagged outcome of section 3 — Success with
the raw response body, or a classified Failure with detail. -/
inductive Outcome
  | success (response_body : String)
  | failure (kind : ErrorKind) (detail : String)
deriving DecidableEq, Repr

/-- Modelled from the spec: the BulkResult value of section 3 —
correlation_id of the originating request, outcome, attempt_count,
elapsed. -/
structure BulkResult where
  correlation_id : String
  outcome : Outcome
  attempt_count : Nat
  elapsed : Nat
deriving DecidableEq, Repr

/-- Modelled from the spec: how the search cluster answers one numbered
attempt — a 2xx body, a transient condition (connection refused or reset,
timeout, 5xx), or a permanent condition (4xx, query rejected). -/
inductive ClusterResponse
  | ok (body : String)
  | transient (detail : String)
  | permanent (detail : String)
deriving DecidableEq, Repr

/-- Modelled from the spec (section 4.2): the executor attempt loop of
the missing worker code. Attempts are numbered from 1; success returns
the body, a permanent failure returns immediately with no further
attempt, a transient failure retries while retry budget remains and
otherwise returns retryable-exhausted. Returns the outcome together with
the number of attempts spent. Backoff sleeps are timing only and are not
modelled. -/
def executeAttempts (cluster : Nat → ClusterResponse) : Nat → Nat → Outcome × Nat
  | attempt, remaining =>
    match cluster attempt with
    | ClusterResponse.ok body => (Outcome.success body, attempt)
    | ClusterResponse.permanent detail =>
      (Outcome.failure ErrorKind.permanent detail, attempt)
    | ClusterResponse.transient detail =>
      match remaining with
      | 0 => (Outcome.failure ErrorKind.retryableExhausted detail, attempt)
      | Nat.succ r => executeAttempts cluster (attempt + 1) r

/-- Modelled from the spec (section 4.2): one full execution of a request
with a bounded attempt budget; at least one attempt is always made. -/
def execute (cluster : Nat → ClusterResponse) (maxAttempts : Nat) : Outcome × Nat :=
  executeAttempts cluster 1 (maxAttempts - 1)

/-- Modelled from the spec (section 4.4): the pure Result Encoder —
correlation id of the request, outcome, attempts spent, elapsed time. -/
def encodeResult (req : BulkRequest) (res : Outcome × Nat) (elapsed : Nat) : BulkResult :=
  ⟨req.correlation_id, res.1, res.2, elapsed⟩

/-- Modelled from the spec (sections 4.1 and 6): a raw input record with
the fields a decoder can find or fail to find. The exact wire encoding is
configuration, so field presence is modelled with Option and the query
list directly. -/
structure RawRecord where
  correlation_id : Option String
  target : Option String
  queries : List String
  meta : List (String × String)
deriving DecidableEq, Repr

/-- Modelled from the spec (section 4.1): the correlation id salvageable
from a malformed record, when one is present at all. -/
def salvageCorrelationId (rec : RawRecord) : Option String :=
  rec.correlation_id

/-- Modelled from the spec (section 4.1): the Request Decoder — one raw
record becomes a BulkRequest or a decode error carrying the salvaged
correlation id; the error cases are missing correlation id, malformed
envelope, and empty query list, all non-retryable. -/
def decode (rec : RawRecord) : Except (Option String × String) BulkRequest :=
  match rec.correlation_id with
  | none => Except.error (none, "missing correlation id")
  | some cid =>
    match rec.target with
    | none => Except.error (some cid, "malformed envelope: missing target")
    | some tgt =>
      match rec.queries with
      | [] => Except.error (some cid, "empty query list")
      | q :: qs => Except.ok ⟨cid, tgt, q :: qs, rec.meta⟩

/-- Modelled from the spec (section 7): what handling one input record can
produce — one BulkResult handed to the Publisher, or a counted drop.
There is no exception alternative, because request-level errors are
always converted into a typed Outcome. -/
inductive Handled
  | result (res : BulkResult)
  | droppedCounted
deriving DecidableEq, Repr

/-- Modelled from the spec (sections 4.1 and 7): the per-record path of
the missing daemon code. A record that decodes goes through the worker
pool and its outcome is encoded; a decode error yields an error
BulkResult carrying the salvaged correlation id, or a counted drop when
no id is recoverable at all. -/
def handleRecord (cluster : Nat → ClusterResponse) (maxAttempts : Nat)
    (rec : RawRecord) : Handled :=
  match decode rec with
  | Except.error (none, _) => Handled.droppedCounted
  | Except.error (some cid, detail) =>
    Handled.result ⟨cid, Outcome.failure ErrorKind.decodeError detail, 1, 0⟩
  | Except.ok req => Handled.result (encodeResult req (execute cluster maxAttempts) 0)

/-- Modelled from the spec (sections 2, 4.3 and 5): the daemon pipeline
state the claims see — requests decoded but not yet dispatched, requests
in flight in the worker pool, results published to the output stream,
and correlation ids whose input offsets have been committed. -/
structure DaemonState where
  pending : List BulkRequest
  inFlight : List BulkRequest
  published : List BulkResult
  committed : List String
deriving DecidableEq, Repr

/-- The daemon starts with the decoded input backlog and nothing
dispatched, published or committed. -/
def initState (reqs : List BulkRequest) : DaemonState :=
  ⟨reqs, [], [], []⟩

/-- Modelled from the spec (sections 4.3, 4.4 and 5): one interleaved
step of the missing daemon pipeline. dispatch hands the next decoded
request to a worker only while fewer than W are busy (backpressure);
complete lets any in-flight request finish, in arbitrary order, with a
result that preserves its correlation id; commit advances the input
offset of a result only once that result is published
(publish-then-commit). -/
inductive Step (W : Nat) : DaemonState → DaemonState → Prop
  | dispatch (r : BulkRequest) (rest : List BulkRequest) (s : DaemonState)
      (hpend : s.pending = r :: rest) (hcap : s.inFlight.length < W) :
      Step W s ⟨rest, s.inFlight ++ [r], s.published, s.committed⟩
  | complete (l1 l2 : List BulkRequest) (r : BulkRequest) (res : BulkResult)
      (s : DaemonState) (hin : s.inFlight = l1 ++ r :: l2)
      (hcid : res.correlation_id = r.correlation_id) :
      Step W s ⟨s.pending, l1 ++ l2, s.published ++ [res], s.committed⟩
  | commit (res : BulkResult) (s : DaemonState) (hpub : res ∈ s.published) :
      Step W s ⟨s.pending, s.inFlight, s.published, s.committed ++ [res.correlation_id]⟩

/-- States the daemon can reach from the initial backlog under a worker
pool of size W. -/
inductive Reachable (W : Nat) (reqs : List BulkRequest) : DaemonState → Prop
  | start : Reachable W reqs (initState reqs)
  | step {s t : DaemonState} :
      Reachable W reqs s → Step W s t → Reachable W reqs t

/-- Occurrences of one correlation id in a list of ids. -/
def idCount (c : String) (l : List String) : Nat :=
  l.countP (fun x => x = c)

/-- A concrete request used by the witness runs. -/
def reqA : BulkRequest := ⟨"corr-1", "idx", ["q1"], []⟩

/-- A concrete result for reqA used by the witness runs. -/
def resA : BulkResult := ⟨"corr-1", Outcome.success "body", 1, 7⟩

/-- State after dispatching reqA to the single worker. -/
def stateDispatched : DaemonState := ⟨[], [reqA], [], []⟩

/-- State after the worker completed reqA and resA was published. -/
def stateDone : DaemonState := ⟨[], [], [resA], []⟩

/-- State after the offset of reqA was committed. -/
def stateCommitted : DaemonState := ⟨[], [], [resA], ["corr-1"]⟩

/-- A cluster that answers every attempt with a 4xx rejection. -/
def clusterPerm : Nat → ClusterResponse :=
  fun _ => ClusterResponse.permanent "400 query rejected"

/-- A raw record with no recoverable correlation id. -/
def recNoId : RawRecord := ⟨none, some "idx", ["q1"], []⟩

end KafkaDaemonModel

lemma splitChars_ne_nil (sep : Char) (l : List Char) : splitChars sep l ≠ [] := by
  cases l with
  | nil => simp [splitChars]
  | cons c rest =>
    by_cases h : c = sep
    · simp [splitChars, h]
    · simp only [splitChars, if_neg h]
      cases splitChars sep rest with
      | nil => simp
      | cons p ps => simp

lemma joinChars_splitChars (sep : Char) (l : List Char) :
    joinChars sep (splitChars sep l) = l := by
  induction l with
  | nil => simp [splitChars, joinChars]
  | cons c rest ih =>
    by_cases h : c = sep
    · subst h
      simp only [splitChars, if_pos rfl]
      cases hs : splitChars c rest with
      | nil => exact absurd hs (splitChars_ne_nil c rest)
      | cons p ps =>
        rw [hs] at ih
        simp [joinChars, ih]
    · simp only [splitChars, if_neg h]
      cases hs : splitChars sep rest with
      | nil => exact absurd hs (splitChars_ne_nil sep rest)
      | cons p ps =>
        rw [hs] at ih
        cases ps with
        | nil => simp [joinChars] at ih ⊢; exact ih
        | cons q qs => simp [joinChars] at ih ⊢; exact ih

lemma sep_not_mem_splitChars (sep : Char) (l : List Char) :
    ∀ piece ∈ splitChars sep l, sep ∉ piece := by
  induction l with
  | nil => simp [splitChars]
  | cons c rest ih =>
    by_cases h : c = sep
    · simp only [splitChars, if_pos h]
      intro piece hp
      rcases List.mem_cons.mp hp with hp | hp
      · simp [hp]
      · exact ih piece hp
    · simp only [splitChars, if_neg h]
      cases hs : splitChars sep rest with
      | nil => exact absurd hs (splitChars_ne_nil sep rest)
      | cons p ps =>
        rw [hs] at ih
        intro piece hp
        rcases List.mem_cons.mp hp with hp | hp
        · subst hp
          intro hmem
          rcases List.mem_cons.mp hmem with hc | hc
          · exact h hc.symm
          · exact ih p (by simp) hc
        · exact ih piece (by simp [hp])

lemma countP_eq_one_of_nodup_mem {α : Type} [DecidableEq α] {l : List α} {c : α}
    (hn : l.Nodup) (hm : c ∈ l) : l.countP (fun x => x = c) = 1 := by
  induction l with
  | nil => cases hm
  | cons a t ih =>
    rw [List.countP_cons]
    rcases List.mem_cons.mp hm with h | h
    · subst h
      have hnt : c ∉ t := (List.nodup_cons.mp hn).1
      have hz : t.countP (fun x => x = c) = 0 := by
        rw [List.countP_eq_zero]
        intro b hb
        simp only [decide_eq_true_eq]
        intro hbc
        exact hnt (hbc ▸ hb)
      simp [hz]
    · have h1 := ih (List.nodup_cons.mp hn).2 h
      have ha : ¬(a = c) := fun hac => (List.nodup_cons.mp hn).1 (hac ▸ h)
      simp [h1, ha]

namespace KafkaDaemonCli

lemma scanDaemonArgv_preserve (argv : List String) (st : DaemonScan) :
    (∃ e, scanDaemonArgv argv st = Except.error e) ∨
    ∃ st2, scanDaemonArgv argv st = Except.ok st2
      ∧ ((∀ t ∈ argv, t ≠ "-b" ∧ t ≠ "--brokers") → st2.brokers = st.brokers)
      ∧ ((∀ t ∈ argv, t ≠ "-w" ∧ t ≠ "--num-workers") → st2.n_workers = st.n_workers) := by
  induction argv, st using scanDaemonArgv.induct with
  | case1 st =>
    exact Or.inr ⟨st, rfl, fun _ => rfl, fun _ => rfl⟩
  | case2 tok st hb =>
    rcases hb with hb | hb <;> subst hb <;> exact Or.inl ⟨_, by simp [scanDaemonArgv] <;> rfl⟩
  | case3 tok st hb v rest2 ih =>
    rcases ih with ⟨e, he⟩ | ⟨st2, hok, hpb, hpw⟩
    · exact Or.inl ⟨e, by rcases hb with hb | hb <;> subst hb <;>
        simp only [scanDaemonArgv] <;> simp [he]⟩
    · refine Or.inr ⟨st2, ?_, ?_, ?_⟩
      · rcases hb with hb | hb <;> subst hb <;>
          simp only [scanDaemonArgv] <;> simp [hok]
      · intro h
        rcases hb with hb | hb <;> subst hb
        · exact absurd rfl (h "-b" (by simp)).1
        · exact absurd rfl (h "--brokers" (by simp)).2
      · intro h
        exact hpw (fun t ht => h t (by simp [ht]))
  | case4 tok st hnb hw =>
    rcases hw with hw | hw <;> subst hw <;>
      exact Or.inl ⟨_, by simp [scanDaemonArgv] <;> rfl⟩
  | case5 tok st hnb hw v rest2 n hint ih =>
    rcases ih with ⟨e, he⟩ | ⟨st2, hok, hpb, hpw⟩
    · exact Or.inl ⟨e, by rcases hw with hw | hw <;> subst hw <;>
        simp only [scanDaemonArgv] <;> simp [hint, he]⟩
    · refine Or.inr ⟨st2, ?_, ?_, ?_⟩
      · rcases hw with hw | hw <;> subst hw <;>
          simp only [scanDaemonArgv] <;> simp [hint, hok]
      · intro h
        exact hpb (fun t ht => h t (by simp [ht]))
      · intro h
        rcases hw with hw | hw <;> subst hw
        · exact absurd rfl (h "-w" (by simp)).1
        · exact absurd rfl (h "--num-workers" (by simp)).2
  | case6 tok st hnb hw v rest2 hint =>
    rcases hw with hw | hw <;> subst hw <;>
      exact Or.inl ⟨_, by simp [scanDaemonArgv, hint] <;> rfl⟩
  | case7 tok rest st hnb hnw =>
    refine Or.inl ⟨"unrecognized arguments: " ++ tok, ?_⟩
    cases rest <;> simp [scanDaemonArgv, hnb, hnw]

/-- C3: the daemon CLI requires the brokers option and, given a
comma-separated string of addresses, parses it into the list of its
comma-separated components (the rejoin of the components with commas is
the original string and no component contains a comma); invoking the CLI
without the brokers option fails argument parsing. -/
theorem c3_brokers_required_and_comma_split :
    (∀ s : String,
        parse_arguments ["-b", s] = Except.ok ⟨pySplit s ',', 5⟩
        ∧ joinChars ',' ((pySplit s ',').map String.data) = s.data
        ∧ ∀ comp ∈ pySplit s ',', ',' ∉ comp.data)
    ∧ ∀ argv : List String, (∀ t ∈ argv, t ≠ "-b" ∧ t ≠ "--brokers") →
        ∃ e, parse_arguments argv = Except.error e := by
  constructor
  · intro s
    refine ⟨by simp [parse_arguments, scanDaemonArgv], ?_, ?_⟩
    · have : (pySplit s ',').map String.data = splitChars ',' s.data := by
        simp only [pySplit, List.map_map]
        exact List.map_id _
      rw [this]
      exact joinChars_splitChars ',' s.data
    · intro comp hcomp
      rcases List.mem_map.mp hcomp with ⟨cs, hcs, hmk⟩
      have : comp.data = cs := by rw [← hmk]
      rw [this]
      exact sep_not_mem_splitChars ',' s.data cs hcs
  · intro argv hno
    rcases scanDaemonArgv_preserve argv ⟨none, none⟩ with ⟨e, he⟩ | ⟨st2, hs, hpb, _⟩
    · exact ⟨e, by simp [parse_arguments, he]⟩
    · have hb : st2.brokers = none := hpb hno
      exact ⟨"the following arguments are required: -b/--brokers",
        by simp [parse_arguments, hs, hb]⟩

/-- Witness for C3 at concrete inputs: two addresses split on the comma,
and an invocation without the brokers option fails. -/
theorem c3_witness :
    parse_arguments ["-b", "h1:9092,h2:9092"] =
      Except.ok ⟨["h1:9092", "h2:9092"], 5⟩
    ∧ ∃ e, parse_arguments ["-w", "3"] = Except.error e := by
  constructor
  · have h := (c3_brokers_required_and_comma_split.1 "h1:9092,h2:9092").1
    rw [h]
    have hs : pySplit "h1:9092,h2:9092" ',' = ["h1:9092", "h2:9092"] := by decide
    rw [hs]
  · exact c3_brokers_required_and_comma_split.2 ["-w", "3"] (by decide)

/-- C4: the num-workers option is converted by int() and sets n_workers;
when no num-workers token appears in argv, any successful parse has
n_workers equal to 5. -/
theorem c4_num_workers_int_default_five :
    (∀ bs v : String, ∀ n : Int, pyInt? v = some n →
        parse_arguments ["-b", bs, "-w", v] = Except.ok ⟨pySplit bs ',', n⟩)
    ∧ ∀ argv : List String, ∀ args : DaemonArgs,
        (∀ t ∈ argv, t ≠ "-w" ∧ t ≠ "--num-workers") →
        parse_arguments argv = Except.ok args → args.n_workers = 5 := by
  constructor
  · intro bs v n hint
    simp [parse_arguments, scanDaemonArgv, hint]
  · intro argv args hno hok
    rcases scanDaemonArgv_preserve argv ⟨none, none⟩ with ⟨e, he⟩ | ⟨st2, hs, _, hpw⟩
    · simp [parse_arguments, he] at hok
    · have hw : st2.n_workers = none := hpw hno
      rcases hb : st2.brokers with _ | bs
      · simp [parse_arguments, hs, hb] at hok
      · simp [parse_arguments, hs, hb, hw] at hok
        rw [← hok]

/-- Witness for C4 at concrete inputs: explicit num-workers 7 is parsed,
and a parse without the option yields the default 5. -/
theorem c4_witness :
    parse_arguments ["-b", "h1:9092", "-w", "7"] = Except.ok ⟨["h1:9092"], 7⟩
    ∧ (DaemonArgs.mk ["h1:9092"] 5).n_workers = 5 := by
  constructor
  · have h := c4_num_workers_int_default_five.1 "h1:9092" "7" 7 (by decide)
    rw [h]
    have hs : pySplit "h1:9092" ',' = ["h1:9092"] := by decide
    rw [hs]
  · exact c4_num_workers_int_default_five.2 ["-b", "h1:9092"] ⟨["h1:9092"], 5⟩
      (by decide) (by decide)

end KafkaDaemonCli

namespace TrainingPipelineCli

lemma scanTrainArgv_preserve (argv : List String) (st : TrainScan) :
    (∃ e, scanTrainArgv argv st = Except.error e) ∨
    ∃ st2, scanTrainArgv argv st = Except.ok st2
      ∧ ((∀ t ∈ argv, t ≠ "-c" ∧ t ≠ "--cv-jobs") → st2.num_cv_jobs = st.num_cv_jobs)
      ∧ ((∀ t ∈ argv, t ≠ "-f" ∧ t ≠ "--folds") → st2.num_folds = st.num_folds) := by
  induction argv, st using scanTrainArgv.induct with
  | case1 st =>
    exact Or.inr ⟨st, rfl, fun _ => rfl, fun _ => rfl⟩
  | case2 tok st hb =>
    rcases hb with hb | hb <;> subst hb <;>
      exact Or.inl ⟨_, by rw [scanTrainArgv.eq_def]; simp <;> rfl⟩
  | case3 tok st hb v rest2 ih =>
    rcases ih with ⟨e, he⟩ | ⟨st2, hok, hcv, hf⟩
    · exact Or.inl ⟨e, by rcases hb with hb | hb <;> subst hb <;>
        (rw [scanTrainArgv.eq_def]; simp [he])⟩
    · refine Or.inr ⟨st2, ?_, ?_, ?_⟩
      · rcases hb with hb | hb <;> subst hb <;>
          (rw [scanTrainArgv.eq_def]; simp [hok])
      · intro h
        exact hcv (fun t ht => h t (by simp [ht]))
      · intro h
        exact hf (fun t ht => h t (by simp [ht]))
  | case4 tok st h1 hb =>
    rcases hb with hb | hb <;> subst hb <;>
      exact Or.inl ⟨_, by rw [scanTrainArgv.eq_def]; simp <;> rfl⟩
  | case5 tok st h1 hb v rest2 ih =>
    rcases ih with ⟨e, he⟩ | ⟨st2, hok, hcv, hf⟩
    · exact Or.inl ⟨e, by rcases hb with hb | hb <;> subst hb <;>
        (rw [scanTrainArgv.eq_def]; simp [he])⟩
    · refine Or.inr ⟨st2, ?_, ?_, ?_⟩
      · rcases hb with hb | hb <;> subst hb <;>
          (rw [scanTrainArgv.eq_def]; simp [hok])
      · intro h
        exact hcv (fun t ht => h t (by simp [ht]))
      · intro h
        exact hf (fun t ht => h t (by simp [ht]))
  | case6 tok st h1 h2 hb =>
    rcases hb with hb | hb <;> subst hb <;>
      exact Or.inl ⟨_, by rw [scanTrainArgv.eq_def]; simp <;> rfl⟩
  | case7 tok st h1 h2 hb v rest2 n hint ih =>
    rcases ih with ⟨e, he⟩ | ⟨st2, hok, hcv, hf⟩
    · exact Or.inl ⟨e, by rcases hb with hb | hb <;> subst hb <;>
        (rw [scanTrainArgv.eq_def]; simp [hint, he])⟩
    · refine Or.inr ⟨st2, ?_, ?_, ?_⟩
      · rcases hb with hb | hb <;> subst hb <;>
          (rw [scanTrainArgv.eq_def]; simp [hint, hok])
      · intro h
        exact hcv (fun t ht => h t (by simp [ht]))
      · intro h
        exact hf (fun t ht => h t (by simp [ht]))
  | case8 tok st h1 h2 hb v rest2 hint =>
    rcases hb with hb | hb <;> subst hb <;>
      exact Or.inl ⟨_, by rw [scanTrainArgv.eq_def]; simp [hint] <;> rfl⟩
  | case9 tok st h1 h2 h3 hb =>
    rcases hb with hb | hb <;> subst hb <;>
      exact Or.inl ⟨_, by rw [scanTrainArgv.eq_def]; simp <;> rfl⟩
  | case10 tok st h1 h2 h3 hb v rest2 n hint ih =>
    rcases ih with ⟨e, he⟩ | ⟨st2, hok, hcv, hf⟩
    · exact Or.inl ⟨e, by rcases hb with hb | hb <;> subst hb <;>
        (rw [scanTrainArgv.eq_def]; simp [hint, he])⟩
    · refine Or.inr ⟨st2, ?_, ?_, ?_⟩
      · rcases hb with hb | hb <;> subst hb <;>
          (rw [scanTrainArgv.eq_def]; simp [hint, hok])
      · intro h
        rcases hb with hb | hb <;> subst hb
        · exact absurd rfl (h "-c" (by simp)).1
        · exact absurd rfl (h "--cv-jobs" (by simp)).2
      · intro h
        exact hf (fun t ht => h t (by simp [ht]))
  | case11 tok st h1 h2 h3 hb v rest2 hint =>
    rcases hb with hb | hb <;> subst hb <;>
      exact Or.inl ⟨_, by rw [scanTrainArgv.eq_def]; simp [hint] <;> rfl⟩
  | case12 tok st h1 h2 h3 h4 hb =>
    rcases hb with hb | hb <;> subst hb <;>
      exact Or.inl ⟨_, by rw [scanTrainArgv.eq_def]; simp <;> rfl⟩
  | case13 tok st h1 h2 h3 h4 hb v rest2 n hint ih =>
    rcases ih with ⟨e, he⟩ | ⟨st2, hok, hcv, hf⟩
    · exact Or.inl ⟨e, by rcases hb with hb | hb <;> subst hb <;>
        (rw [scanTrainArgv.eq_def]; simp [hint, he])⟩
    · refine Or.inr ⟨st2, ?_, ?_, ?_⟩
      · rcases hb with hb | hb <;> subst hb <;>
          (rw [scanTrainArgv.eq_def]; simp [hint, hok])
      · intro h
        exact hcv (fun t ht => h t (by simp [ht]))
      · intro h
        rcases hb with hb | hb <;> subst hb
        · exact absurd rfl (h "-f" (by simp)).1
        · exact absurd rfl (h "--folds" (by simp)).2
  | case14 tok st h1 h2 h3 h4 hb v rest2 hint =>
    rcases hb with hb | hb <;> subst hb <;>
      exact Or.inl ⟨_, by rw [scanTrainArgv.eq_def]; simp [hint] <;> rfl⟩
  | case15 tok st h1 h2 h3 h4 h5 hb =>
    rcases hb with hb | hb <;> subst hb <;>
      exact Or.inl ⟨_, by rw [scanTrainArgv.eq_def]; simp <;> rfl⟩
  | case16 tok st h1 h2 h3 h4 h5 hb v rest2 n hint ih =>
    rcases ih with ⟨e, he⟩ | ⟨st2, hok, hcv, hf⟩
    · exact Or.inl ⟨e, by rcases hb with hb | hb <;> subst hb <;>
        (rw [scanTrainArgv.eq_def]; simp [hint, he])⟩
    · refine Or.inr ⟨st2, ?_, ?_, ?_⟩
      · rcases hb with hb | hb <;> subst hb <;>
          (rw [scanTrainArgv.eq_def]; simp [hint, hok])
      · intro h
        exact hcv (fun t ht => h t (by simp [ht]))
      · intro h
        exact hf (fun t ht => h t (by simp [ht]))
  | case17 tok st h1 h2 h3 h4 h5 hb v rest2 hint =>
    rcases hb with hb | hb <;> subst hb <;>
      exact Or.inl ⟨_, by rw [scanTrainArgv.eq_def]; simp [hint] <;> rfl⟩
  | case18 tok rest st h1 h2 h3 h4 h5 h6 tl htd =>
    refine Or.inl ⟨"unrecognized arguments: " ++ tok, ?_⟩
    rw [scanTrainArgv.eq_def]
    simp [h1, h2, h3, h4, h5, h6, htd]
  | case19 tok rest st h1 h2 h3 h4 h5 h6 hnd ih =>
    have hred : scanTrainArgv (tok :: rest) st =
        scanTrainArgv rest { st with wikis := st.wikis ++ [tok] } := by
      rw [scanTrainArgv.eq_def]
      rcases htd : tok.data with _ | ⟨c, tl⟩
      · simp [h1, h2, h3, h4, h5, h6, htd]
      · have hc : ¬(c = '-') := fun hcc => hnd tl (by rw [htd, hcc])
        simp [h1, h2, h3, h4, h5, h6, htd, hc]
    rcases ih with ⟨e, he⟩ | ⟨st2, hok, hcv, hf⟩
    · exact Or.inl ⟨e, by rw [hred]; exact he⟩
    · refine Or.inr ⟨st2, by rw [hred]; exact hok, ?_, ?_⟩
      · intro h
        exact hcv (fun t ht => h t (by simp [ht]))
      · intro h
        exact hf (fun t ht => h t (by simp [ht]))

/-- C8: whenever the cv-jobs option is absent from argv, a successful
parse of the training CLI has num_cv_jobs equal to num_folds; and when
the folds option is also absent, num_folds is 5. -/
theorem c8_cv_jobs_defaults_to_folds (argv : List String) (args : TrainArgs)
    (hc : ∀ t ∈ argv, t ≠ "-c" ∧ t ≠ "--cv-jobs")
    (hok : parse_arguments argv = Except.ok args) :
    args.num_cv_jobs = args.num_folds
    ∧ ((∀ t ∈ argv, t ≠ "-f" ∧ t ≠ "--folds") → args.num_folds = 5) := by
  rcases scanTrainArgv_preserve argv ⟨none, none, none, none, none, none, []⟩ with
    ⟨e, he⟩ | ⟨st2, hs, hcv, hf⟩
  · simp [parse_arguments, he] at hok
  · have hcv2 : st2.num_cv_jobs = none := hcv hc
    rcases hi : st2.input_dir with _ | idir
    · simp [parse_arguments, hs, hi] at hok
    · rcases ho : st2.output_dir with _ | odir
      · simp [parse_arguments, hs, hi, ho] at hok
      · rcases hw : st2.wikis with _ | ⟨w, ws⟩
        · simp [parse_arguments, hs, hi, ho, hw] at hok
        · simp [parse_arguments, hs, hi, ho, hw, hcv2] at hok
          constructor
          · rw [← hok]
          · intro hnf
            have : st2.num_folds = none := hf hnf
            rw [← hok, this]
            rfl

/-- Witness for C8 at a concrete invocation with neither cv-jobs nor
folds given: both come out as 5. -/
theorem c8_witness :
    (TrainArgs.mk "hdfs://in" "/out" 10 5 5 none ["enwiki"]).num_cv_jobs =
      (TrainArgs.mk "hdfs://in" "/out" 10 5 5 none ["enwiki"]).num_folds
    ∧ ((∀ t ∈ ["-i", "hdfs://in", "-o", "/out", "enwiki"], t ≠ "-f" ∧ t ≠ "--folds") →
        (TrainArgs.mk "hdfs://in" "/out" 10 5 5 none ["enwiki"]).num_folds = 5) :=
  c8_cv_jobs_defaults_to_folds ["-i", "hdfs://in", "-o", "/out", "enwiki"]
    ⟨"hdfs://in", "/out", 10, 5, 5, none, ["enwiki"]⟩ (by decide) (by decide)

end TrainingPipelineCli

namespace TrainingPipeline

/-- C9: for a wiki processed with a nonzero number of rows, the per-wiki
body passes min(100, max(1, data_size div 40000)) fold partitions to the
tune call, a value always between 1 and 100 inclusive. -/
theorem c9_num_fold_partitions_bounds (data_size : String → Nat)
    (num_workers num_cv_jobs num_folds : Int) (wiki : String)
    (h : data_size wiki ≠ 0) :
    (∃ evs, processWiki data_size num_workers num_cv_jobs num_folds wiki = Except.ok evs
       ∧ Event.tuneCall wiki num_folds (num_fold_partitions (data_size wiki))
           num_cv_jobs num_workers ∈ evs)
    ∧ num_fold_partitions (data_size wiki) = min 100 (max 1 (data_size wiki / 40000))
    ∧ 1 ≤ num_fold_partitions (data_size wiki)
    ∧ num_fold_partitions (data_size wiki) ≤ 100 := by
  refine ⟨?_, rfl, le_min (by norm_num) (le_max_left 1 _), min_le_left _ _⟩
  have hfmt : pyFormat "Training wiki: %s" 1 = Except.ok () := by decide
  have hrun : runFormats [("Wrote tuning results to %s", 1),
      ("CV  test-ndcg@10: %.4f", 1), ("CV train-ndcg@10: %.4f", 1),
      ("\t%20s: %s", 2), ("train-ndcg@10: %.3f", 1), ("%d %s q", 2),
      ("Wrote xgboost json model to %s", 1),
      ("Wrote xgboost binary model to %s", 1)] = Except.ok () := by decide
  refine ⟨[Event.tuneCall wiki num_folds (num_fold_partitions (data_size wiki))
      num_cv_jobs num_workers, Event.wroteTunePickle wiki,
      Event.wroteJsonModel wiki, Event.wroteBinaryModel wiki], ?_, by simp⟩
  simp [processWiki, hfmt, hrun, h]

/-- Witness for C9 at a concrete row count of 50000: the tune call gets
one fold partition (50000 div 40000 is 1) and the bounds hold. -/
theorem c9_witness :
    (∃ evs, processWiki (fun _ => 50000) 10 5 5 "enwiki" = Except.ok evs
       ∧ Event.tuneCall "enwiki" 5 (num_fold_partitions 50000) 5 10 ∈ evs)
    ∧ num_fold_partitions 50000 = min 100 (max 1 (50000 / 40000))
    ∧ 1 ≤ num_fold_partitions 50000
    ∧ num_fold_partitions 50000 ≤ 100 :=
  c9_num_fold_partitions_bounds (fun _ => 50000) 10 5 5 "enwiki" (by decide)

/-- C10 (code bug): on a wiki whose filtered dataframe has zero rows,
line 32 of training_pipeline.py applies a format string holding no
conversion specifier to one argument, so the interpreter raises
TypeError instead of skipping to the next wiki: the model of main aborts
with that TypeError and the following wiki is never processed. -/
theorem c10_zero_rows_crashes_loop :
    main (fun w => if w = "enwiki" then 0 else 80000) 10 5 5 ["enwiki", "dewiki"] =
      Except.error "TypeError: not all arguments converted during string formatting" := by
  decide

end TrainingPipeline

namespace KafkaDaemonModel

lemma reachable_id_conservation (W : Nat) (reqs : List BulkRequest) (s : DaemonState)
    (h : Reachable W reqs s) (c : String) :
    idCount c (s.pending.map BulkRequest.correlation_id)
      + idCount c (s.inFlight.map BulkRequest.correlation_id)
      + idCount c (s.published.map BulkResult.correlation_id)
      = idCount c (reqs.map BulkRequest.correlation_id) := by
  induction h with
  | start => simp [initState, idCount]
  | step hr hs ih =>
    cases hs with
    | dispatch r rest s hpend hcap =>
      rw [hpend] at ih
      by_cases hrc : r.correlation_id = c <;>
        (simp [idCount, List.countP_append, List.countP_cons, hrc] at ih ⊢; omega)
    | complete l1 l2 r res s hin hcid =>
      rw [hin] at ih
      by_cases hrc : r.correlation_id = c <;>
        (simp [idCount, List.countP_append, List.countP_cons, hrc, hcid] at ih ⊢; omega)
    | commit res s hpub =>
      simpa [idCount] using ih

/-- C1: from any reachable daemon state that has drained (no pending and
no in-flight requests), when the decoded requests carry pairwise distinct
correlation ids, the published output stream holds exactly one BulkResult
whose correlation id equals that of each consumed request — never zero
and never more than one. -/
theorem c1_exactly_one_result_per_request (W : Nat) (reqs : List BulkRequest)
    (s : DaemonState) (hreach : Reachable W reqs s)
    (hnodup : (reqs.map BulkRequest.correlation_id).Nodup)
    (hpend : s.pending = []) (hinf : s.inFlight = []) :
    ∀ r ∈ reqs,
      (s.published.filter
        (fun res => res.correlation_id = r.correlation_id)).length = 1 := by
  intro r hr
  have hc := reachable_id_conservation W reqs s hreach r.correlation_id
  rw [hpend, hinf] at hc
  simp only [List.map_nil, idCount, List.countP_nil, Nat.zero_add] at hc
  have hmem : r.correlation_id ∈ reqs.map BulkRequest.correlation_id :=
    List.mem_map_of_mem _ hr
  have hone := countP_eq_one_of_nodup_mem hnodup hmem
  rw [hone] at hc
  calc (s.published.filter fun res => res.correlation_id = r.correlation_id).length
      = List.countP (fun res => res.correlation_id = r.correlation_id) s.published :=
        (List.countP_eq_length_filter _ _).symm
    _ = List.countP (fun x => x = r.correlation_id)
          (s.published.map BulkResult.correlation_id) := by
        rw [List.countP_map]; rfl
    _ = 1 := hc

/-- Witness for C1 on a concrete complete run with one request under one
worker: dispatch, then complete; the drained state has exactly one
published result with the correlation id of the request. -/
theorem c1_witness :
    (stateDone.published.filter
      (fun res => res.correlation_id = reqA.correlation_id)).length = 1 := by
  have hreach : Reachable 1 [reqA] stateDone :=
    Reachable.step
      (Reachable.step Reachable.start (Step.dispatch reqA [] _ rfl (by decide)))
      (Step.complete [] [] reqA resA _ rfl rfl)
  exact c1_exactly_one_result_per_request 1 [reqA] stateDone hreach
    (by decide) rfl rfl reqA (by decide)

/-- C2: in every reachable daemon state, at most W requests are in
flight against the search cluster, whatever the backlog size. -/
theorem c2_at_most_w_in_flight (W : Nat) (reqs : List BulkRequest) (s : DaemonState)
    (h : Reachable W reqs s) : s.inFlight.length ≤ W := by
  induction h with
  | start => simp [initState]
  | step hr hs ih =>
    cases hs with
    | dispatch r rest s hpend hcap =>
      simp only [List.length_append, List.length_cons, List.length_nil]
      omega
    | complete l1 l2 r res s hin hcid =>
      rw [hin] at ih
      simp only [List.length_append, List.length_cons] at ih ⊢
      omega
    | commit res s hpub => exact ih

/-- Witness for C2 on a concrete reachable state with the single worker
busy: one in-flight request against a pool bound of one. -/
theorem c2_witness : stateDispatched.inFlight.length ≤ 1 :=
  c2_at_most_w_in_flight 1 [reqA] stateDispatched
    (Reachable.step Reachable.start (Step.dispatch reqA [] _ rfl (by decide)))

/-- C7: in every reachable daemon state, every committed input offset
belongs to a request whose result is already published — no item is ever
committed while its result is un-published. -/
theorem c7_commit_only_after_publish (W : Nat) (reqs : List BulkRequest)
    (s : DaemonState) (h : Reachable W reqs s) :
    ∀ c ∈ s.committed, ∃ res ∈ s.published, res.correlation_id = c := by
  induction h with
  | start => simp [initState]
  | step hr hs ih =>
    cases hs with
    | dispatch r rest s hpend hcap => exact ih
    | complete l1 l2 r res s hin hcid =>
      intro c hc
      rcases ih c hc with ⟨r2, hr2, hc2⟩
      exact ⟨r2, List.mem_append_left _ hr2, hc2⟩
    | commit res s hpub =>
      intro c hc
      rcases List.mem_append.mp hc with hc | hc
      · exact ih c hc
      · have hceq : c = res.correlation_id := by simpa using hc
        exact ⟨res, hpub, hceq.symm⟩

/-- Witness for C7 on a concrete run that dispatches, completes and then
commits reqA: the committed id corr-1 has a published result. -/
theorem c7_witness : ∃ res ∈ stateCommitted.published, res.correlation_id = "corr-1" := by
  have hreach : Reachable 1 [reqA] stateCommitted :=
    Reachable.step
      (Reachable.step
        (Reachable.step Reachable.start (Step.dispatch reqA [] _ rfl (by decide)))
        (Step.complete [] [] reqA resA _ rfl rfl))
      (Step.commit resA _ (by decide))
  exact c7_commit_only_after_publish 1 [reqA] stateCommitted hreach "corr-1" (by decide)

/-- C5: when the first attempt of a request fails permanently, the
executor produces the encoded result with attempt_count 1 and a
permanent failure outcome, and no retry happens: the outcome does not
depend on how the cluster would answer any later attempt. -/
theorem c5_permanent_failure_no_retry (cluster : Nat → ClusterResponse)
    (maxAttempts : Nat) (req : BulkRequest) (detail : String) (elapsed : Nat)
    (h : cluster 1 = ClusterResponse.permanent detail) :
    encodeResult req (execute cluster maxAttempts) elapsed =
      ⟨req.correlation_id, Outcome.failure ErrorKind.permanent detail, 1, elapsed⟩
    ∧ ∀ cluster2 : Nat → ClusterResponse, cluster2 1 = cluster 1 →
        execute cluster2 maxAttempts = execute cluster maxAttempts := by
  have key : ∀ cl : Nat → ClusterResponse, cl 1 = ClusterResponse.permanent detail →
      ∀ rem, executeAttempts cl 1 rem =
        (Outcome.failure ErrorKind.permanent detail, 1) := by
    intro cl hcl rem
    rw [executeAttempts.eq_def]
    simp [hcl]
  constructor
  · rw [execute, key cluster h]
    rfl
  · intro cluster2 h2
    rw [execute, execute, key cluster h, key cluster2 (h2.trans h)]

/-- Witness for C5 with a cluster that rejects with a 4xx on every
attempt: the encoded result carries attempt_count 1 and the permanent
failure. -/
theorem c5_witness :
    encodeResult reqA (execute clusterPerm 3) 0 =
      ⟨"corr-1", Outcome.failure ErrorKind.permanent "400 query rejected", 1, 0⟩ :=
  (c5_permanent_failure_no_retry clusterPerm 3 reqA "400 query rejected" 0 rfl).1

/-- C6: handling a record never escapes as an exception — every raw
record yields either one BulkResult or a counted drop, and the drop
happens exactly when no correlation id is recoverable from the record. -/
theorem c6_malformed_input_result_or_counted_drop (cluster : Nat → ClusterResponse)
    (maxAttempts : Nat) (rec : RawRecord) :
    ((∃ res, handleRecord cluster maxAttempts rec = Handled.result res)
      ∨ handleRecord cluster maxAttempts rec = Handled.droppedCounted)
    ∧ (handleRecord cluster maxAttempts rec = Handled.droppedCounted ↔
        salvageCorrelationId rec = none) := by
  rcases hcid : rec.correlation_id with _ | cid
  · refine ⟨Or.inr ?_, ?_⟩
    · simp [handleRecord, decode, hcid]
    · simp [handleRecord, decode, salvageCorrelationId, hcid]
  · rcases htgt : rec.target with _ | tgt
    · refine ⟨Or.inl ⟨⟨cid, Outcome.failure ErrorKind.decodeError
        "malformed envelope: missing target", 1, 0⟩, ?_⟩, ?_⟩
      · simp [handleRecord, decode, hcid, htgt]
      · simp [handleRecord, decode, salvageCorrelationId, hcid, htgt]
    · rcases hq : rec.queries with _ | ⟨q, qs⟩
      · refine ⟨Or.inl ⟨⟨cid, Outcome.failure ErrorKind.decodeError
          "empty query list", 1, 0⟩, ?_⟩, ?_⟩
        · simp [handleRecord, decode, hcid, htgt, hq]
        · simp [handleRecord, decode, salvageCorrelationId, hcid, htgt, hq]
      · refine ⟨Or.inl ⟨encodeResult ⟨cid, tgt, q :: qs, rec.meta⟩
          (execute cluster maxAttempts) 0, ?_⟩, ?_⟩
        · simp [handleRecord, decode, hcid, htgt, hq]
        · simp [handleRecord, decode, salvageCorrelationId, hcid, htgt, hq]

/-- Witness for C6 at a record with no recoverable correlation id: the
record becomes a counted drop, and droppedCounted matches that the
salvaged id is none. -/
theorem c6_witness :
    ((∃ res, handleRecord clusterPerm 3 recNoId = Handled.result res)
      ∨ handleRecord clusterPerm 3 recNoId = Handled.droppedCounted)
    ∧ (handleRecord clusterPerm 3 recNoId = Handled.droppedCounted ↔
        salvageCorrelationId recNoId = none) :=
  c6_malformed_input_result_or_counted_drop clusterPerm 3 recNoId

end KafkaDaemonModel

end SparkDbn
